import Mathlib

/-!
Shallow embedding of the `jiankong` server-monitor program
(`src/jiankong/main.go`) of the `sky22333/go-utils` repository.

Conventions of the embedding:
* Go `float64` metric values are modelled as `ℚ`; the comparisons the
  program performs (`>`, `<=` against integer thresholds) are exact over
  the rationals for every value the program can observe.
* Go `int` thresholds are modelled as `ℤ` (overflow is irrelevant at the
  magnitudes involved; no arithmetic other than `threshold - 10` occurs).
* The Go map `alertSent : map[string]bool` is modelled as a total function
  `String → Bool`; a missing key of a Go map reads as `false`, which the
  initial state `fun _ => false` reproduces.
* Strings handled character-wise by the program (`maskIP`) are modelled as
  `List Char`; the inputs the program feeds to these functions are ASCII,
  where Go's byte indexing and `List Char` indexing agree.
* Fallible external calls (metric retrieval, HTTP geolocation, reading
  `config.json`) are modelled as `Option`-valued inputs.
-/

namespace Jiankong

/-! ## Alert state (the `alertSent` map of `ServerMonitor`) -/

/-- The `alertSent map[string]bool` field of `ServerMonitor`: per-metric
firing flag, keyed by the metric name. Absent keys of the Go map read as
`false`. -/
def AlertState : Type := String → Bool

/-- `make(map[string]bool)`: the all-clear initial state. -/
def initAlertState : AlertState := fun _ => false

/-- Write one key of the `alertSent` map. -/
def setFlag (s : AlertState) (key : String) (b : Bool) : AlertState :=
  fun k => if k = key then b else s k

/-- The metric key used by the CPU branch of `startRealTimeAlert`. -/
def cpuKey : String := "cpu"

/-- The metric key used by the memory branch of `startRealTimeAlert`. -/
def memKey : String := "mem"

/-- One metric's check inside the tick body of `startRealTimeAlert`
(`src/jiankong/main.go:208-213` for cpu, `216-221` for mem; both branches
are the same code up to key, value and threshold):

```go
if value > float64(threshold) && !m.alertSent[key] {
    m.sendMessage(...)            // notification
    m.alertSent[key] = true
} else if value <= float64(threshold-10) {
    m.alertSent[key] = false      // silent reset
}
```

Returns the updated map and whether a notification was sent. -/
def alertStep (s : AlertState) (key : String) (value : ℚ) (threshold : ℤ) :
    AlertState × Bool :=
  if value > (threshold : ℚ) ∧ s key = false then
    (setFlag s key true, true)
  else if value ≤ ((threshold - 10 : ℤ) : ℚ) then
    (setFlag s key false, false)
  else
    (s, false)

/-- The transition classification of spec §4.1, read off the observables of
one `alertStep`: a notification marks `Fired`; a firing flag going from set
to clear marks `Cleared`; anything else is `None`. -/
inductive Transition : Type where
  | fired : Transition
  | cleared : Transition
  | none : Transition
deriving DecidableEq, Repr

/-- Classify one step from its observables: the old flag, the new flag and
whether a notification was sent. -/
def transitionOf (oldFlag newFlag notified : Bool) : Transition :=
  if notified then Transition.fired
  else if oldFlag = true ∧ newFlag = false then Transition.cleared
  else Transition.none

/-- Iterate `alertStep` for one metric over a list of successive sampled
values (successive ticks of `startRealTimeAlert`). Returns the final map,
the number of notifications sent, and the list of transitions observed. -/
def alertRun (s : AlertState) (key : String) (vals : List ℚ) (threshold : ℤ) :
    AlertState × ℕ × List Transition :=
  match vals with
  | [] => (s, 0, [])
  | v :: rest =>
    let r := alertStep s key v threshold
    let tr := transitionOf (s key) (r.1 key) r.2
    let next := alertRun r.1 key rest threshold
    (next.1, (if r.2 then 1 else 0) + next.2.1, tr :: next.2.2)

/-- One full tick of `startRealTimeAlert`: the CPU check followed by the
memory check, on the shared `alertSent` map. Returns the final map and the
number of notifications sent this tick. -/
def realTimeTick (cpuTh memTh : ℤ) (s : AlertState) (cpuVal memVal : ℚ) :
    AlertState × ℕ :=
  let c := alertStep s cpuKey cpuVal cpuTh
  let mrec := alertStep c.1 memKey memVal memTh
  (mrec.1, (if c.2 then 1 else 0) + (if mrec.2 then 1 else 0))

/-! ## Configuration (`Config`, `loadConfig`) -/

/-- The `Config` struct (`src/jiankong/main.go:25-32`). -/
structure Config : Type where
  botToken : String
  chatID : ℤ
  reportTime : String
  customMessage : String
  cpuThreshold : ℤ
  memThreshold : ℤ
deriving DecidableEq, Repr

/-- The six environment variables `loadConfig` consults, as returned by
`os.Getenv`: the empty string means "unset". -/
structure EnvVars : Type where
  botToken : String
  chatID : String
  reportTime : String
  customMessage : String
  cpuThreshold : String
  memThreshold : String
deriving DecidableEq, Repr

/-- The fields present in a successfully unmarshalled `config.json`:
`json.Unmarshal` overwrites exactly the fields present in the document and
leaves absent fields untouched. -/
structure FileConfig : Type where
  botToken : Option String
  chatID : Option ℤ
  reportTime : Option String
  customMessage : Option String
  cpuThreshold : Option ℤ
  memThreshold : Option ℤ
deriving DecidableEq, Repr

/-- The built-in defaults `loadConfig` starts from
(`src/jiankong/main.go:75-80`). -/
def defaultConfig : Config :=
  { botToken := ""
    chatID := 0
    reportTime := "15:00"
    customMessage := "🖥️ 服务器状态报告"
    cpuThreshold := 80
    memThreshold := 80 }

/-- A decimal digit, `0`-`9`. -/
def isDigitChar (c : Char) : Bool := decide ('0' ≤ c ∧ c ≤ '9')

/-- Value of a digit string, most significant first. -/
def digitsToNat (l : List Char) : ℕ :=
  l.foldl (fun n c => n * 10 + (c.toNat - '0'.toNat)) 0

/-- Go `strconv.ParseInt(s, 10, 64)` (and `strconv.Atoi`): an optional
sign followed by at least one decimal digit; anything else is an error
(`none`). 64-bit overflow, which these claims never exercise, is not
modelled. -/
def parseInt (s : String) : Option ℤ :=
  match s.toList with
  | [] => Option.none
  | '+' :: rest =>
    if rest ≠ [] ∧ rest.all isDigitChar then some (digitsToNat rest : ℤ)
    else Option.none
  | '-' :: rest =>
    if rest ≠ [] ∧ rest.all isDigitChar then some (-(digitsToNat rest : ℤ))
    else Option.none
  | l =>
    if l.all isDigitChar then some (digitsToNat l : ℤ)
    else Option.none

/-- The environment-variable pass of `loadConfig`
(`src/jiankong/main.go:83-106`): each variable, when non-empty (and for the
numeric ones, when it parses — `strconv.ParseInt`/`strconv.Atoi`, modelled
by `parseInt`), overwrites the corresponding field. -/
def applyEnv (env : EnvVars) (c : Config) : Config :=
  let c := if env.botToken ≠ "" then { c with botToken := env.botToken } else c
  let c :=
    if env.chatID ≠ "" then
      match parseInt env.chatID with
      | some id => { c with chatID := id }
      | Option.none => c
    else c
  let c := if env.reportTime ≠ "" then { c with reportTime := env.reportTime } else c
  let c :=
    if env.customMessage ≠ "" then { c with customMessage := env.customMessage } else c
  let c :=
    if env.cpuThreshold ≠ "" then
      match parseInt env.cpuThreshold with
      | some t => { c with cpuThreshold := t }
      | Option.none => c
    else c
  let c :=
    if env.memThreshold ≠ "" then
      match parseInt env.memThreshold with
      | some t => { c with memThreshold := t }
      | Option.none => c
    else c
  c

/-- The `config.json` pass of `loadConfig` (`src/jiankong/main.go:109-113`):
`json.Unmarshal(data, config)` overwrites the fields present in the file and
keeps the current value of absent fields. -/
def applyFile (f : FileConfig) (c : Config) : Config :=
  { botToken := f.botToken.getD c.botToken
    chatID := f.chatID.getD c.chatID
    reportTime := f.reportTime.getD c.reportTime
    customMessage := f.customMessage.getD c.customMessage
    cpuThreshold := f.cpuThreshold.getD c.cpuThreshold
    memThreshold := f.memThreshold.getD c.memThreshold }

/-- `loadConfig` (`src/jiankong/main.go:74-124`): start from the defaults,
apply the environment variables, then — if `config.json` exists and
unmarshals — apply the file over the result, and finally validate that the
token and chat id are set. `file = none` covers both a missing file and an
unmarshal failure (in which case the Go code logs and keeps the config it
has). -/
def loadConfig (env : EnvVars) (file : Option FileConfig) : Except String Config :=
  let c := applyEnv env defaultConfig
  let c :=
    match file with
    | some f => applyFile f c
    | Option.none => c
  if c.botToken = "" then Except.error ("必须设置 BOT_TOKEN")
  else if c.chatID = 0 then Except.error ("必须设置 CHAT_ID")
  else Except.ok c

/-! ## Scheduler (`startScheduledReport`) -/

/-- Nanoseconds per second (Go `time` nanosecond resolution). -/
def nsPerSecond : ℤ := 1000000000

/-- Nanoseconds per day. In the fixed `CST` = UTC+8 offset zone every day
is exactly 86400 seconds: the offset is fixed, not a named DST zone. -/
def nsPerDay : ℤ := 86400 * nsPerSecond

/-- Today's target instant (`src/jiankong/main.go:241-245`): an instant is
modelled as Beijing-local nanoseconds since an (arbitrary) Beijing
midnight; `time.Date(year, month, day, hour, minute, 0, 0, CST)` on the
year/month/day of the current Beijing time is then midnight of the current
day (`fdiv` = floor division) plus the configured hour and minute. -/
def targetToday (t : ℤ) (hour minute : ℕ) : ℤ :=
  nsPerDay * (t.fdiv nsPerDay) +
    ((hour : ℤ) * 3600 + (minute : ℤ) * 60) * nsPerSecond

/-- The next-fire instant computed by one cycle of `startScheduledReport`
(`src/jiankong/main.go:241-253`): today's target, advanced by 24 hours
exactly when the current Beijing time is strictly after it
(`beijingTime.After(targetTime)`). -/
def nextFire (t : ℤ) (hour minute : ℕ) : ℤ :=
  if targetToday t hour minute < t then targetToday t hour minute + nsPerDay
  else targetToday t hour minute

/-! ## String helpers modelling Go's `strings` package -/

/-- Go `strings.Split(l, c)` for a single-character separator: split at
every occurrence of `c`; `count c l + 1` parts, empty parts kept. -/
def splitOnChar (c : Char) : List Char → List (List Char)
  | [] => [[]]
  | a :: rest =>
    let r := splitOnChar c rest
    if a = c then [] :: r
    else (a :: r.headD []) :: r.tail

/-- The maximal dot-free (`c`-free) suffix of `l`: the text after the last
occurrence of `c`, or all of `l` when `c` does not occur. -/
def afterLast (c : Char) (l : List Char) : List Char :=
  (l.reverse.takeWhile (fun a => a ≠ c)).reverse

/-! ## `maskIP`, `formatUptime`, retrieval helpers, `checkAndSendAlert` -/

/-- `maskIP` (`src/jiankong/main.go:435-452`):

```go
if strings.Count(ip, ".") == 3 {
    parts := strings.Split(ip, ".")
    return "x.x.x." + parts[3]
}
if strings.Contains(ip, ":") {
    ipStripped := strings.ReplaceAll(ip, ":", "")
    if len(ipStripped) > 8 {
        return "..." + ipStripped[len(ipStripped)-8:]
    }
    return "..." + ipStripped
}
return ip
```

`parts[3]` is modelled by `getD 3 []`; in the branch where it is evaluated
the split has exactly 4 parts, so the default is never taken. -/
def maskIP (ip : List Char) : List Char :=
  if ip.count '.' = 3 then
    "x.x.x.".toList ++ (splitOnChar '.' ip).getD 3 []
  else if ':' ∈ ip then
    let ipStripped := ip.filter (fun a => a ≠ ':')
    if 8 < ipStripped.length then
      "...".toList ++ ipStripped.drop (ipStripped.length - 8)
    else
      "...".toList ++ ipStripped
  else ip

/-- `formatUptime` (`src/jiankong/main.go:455-468`). The Go code converts
the uptime (seconds, `uint64`) to a `time.Duration` and truncates
`duration.Hours()` / `duration.Minutes()` to `int`; for a non-negative
integer number of seconds this is exactly the floor divisions below. -/
def formatUptime (uptime : ℕ) : String :=
  let days := uptime / 3600 / 24
  let hours := uptime / 3600 % 24
  let minutes := uptime / 60 % 60
  if days > 0 then
    Nat.repr days ++ "天" ++ Nat.repr hours ++ "小时" ++ Nat.repr minutes ++ "分钟"
  else if hours > 0 then
    Nat.repr hours ++ "小时" ++ Nat.repr minutes ++ "分钟"
  else
    Nat.repr minutes ++ "分钟"

/-- `getCPUUsage` (`src/jiankong/main.go:328-337`): the outcome of
`cpu.PercentWithContext` is an error (`none`) or a list of samples; on
error or an empty list the function returns `0`, otherwise `percent[0]`. -/
def getCPUUsage (res : Option (List ℚ)) : ℚ :=
  match res with
  | Option.none => 0
  | some percent => if percent.length = 0 then 0 else percent.headD 0

/-- The `LocationInfo` struct (`src/jiankong/main.go:50-54`). -/
structure LocationInfo : Type where
  ip : String
  location : String
  country : String
deriving DecidableEq, Repr

/-- `getLocationInfo` (`src/jiankong/main.go:398-432`): `resp` is the body
of the `cdn-cgi/trace` response, or `none` when the HTTP request or the
body read fails. On failure the "未知" (unknown) placeholders are returned;
on success the `ip=` / `loc=` / `colo=` lines are scanned and empty ip or
location fall back to the same placeholder. -/
def getLocationInfo (resp : Option String) : LocationInfo :=
  match resp with
  | Option.none => { ip := "未知", location := "未知", country := "" }
  | some body =>
    let lines := body.splitOn "\n"
    let info :=
      lines.foldl
        (fun (info : LocationInfo) line =>
          if line.startsWith ("ip=") then { info with ip := line.drop 3 }
          else if line.startsWith ("loc=") then { info with location := line.drop 4 }
          else if line.startsWith ("colo=") then { info with country := line.drop 5 }
          else info)
        { ip := "", location := "", country := "" }
    let info := if info.ip = "" then { info with ip := "未知" } else info
    if info.location = "" then { info with location := "未知" } else info

/-- `checkAndSendAlert` (`src/jiankong/main.go:471-493`): collect an alert
line for each metric strictly above its threshold and send one combined
message exactly when the list is non-empty. The function never touches the
`alertSent` map; the embedding passes the map through to make that frame
property statable. The numeric rendering inside the lines is elided: only
the decision to send is at issue. Returns the (unchanged) map and whether a
message was sent. -/
def checkAndSendAlert (cfg : Config) (s : AlertState) (cpuVal memVal : ℚ) :
    AlertState × Bool :=
  let alerts : List String :=
    (if cpuVal > (cfg.cpuThreshold : ℚ) then [("🔴 CPU 使用率过高")] else []) ++
    (if memVal > (cfg.memThreshold : ℚ) then [("🔴 内存使用率过高")] else [])
  (s, decide (0 < alerts.length))

/-! ## Helper lemmas about the alert state machine -/

theorem setFlag_self (s : AlertState) (key : String) (b : Bool) :
    setFlag s key b key = b := by
  simp [setFlag]

theorem setFlag_other (s : AlertState) (key : String) (b : Bool) (k : String)
    (h : k ≠ key) : setFlag s key b k = s k := by
  simp [setFlag, h]

theorem alertStep_fire (s : AlertState) (key : String) (v : ℚ) (th : ℤ)
    (h1 : v > (th : ℚ)) (h2 : s key = false) :
    alertStep s key v th = (setFlag s key true, true) := by
  unfold alertStep
  rw [if_pos ⟨h1, h2⟩]

theorem alertStep_reset (s : AlertState) (key : String) (v : ℚ) (th : ℤ)
    (h0 : ¬(v > (th : ℚ) ∧ s key = false)) (h1 : v ≤ ((th - 10 : ℤ) : ℚ)) :
    alertStep s key v th = (setFlag s key false, false) := by
  unfold alertStep
  rw [if_neg h0, if_pos h1]

theorem alertStep_idle (s : AlertState) (key : String) (v : ℚ) (th : ℤ)
    (h0 : ¬(v > (th : ℚ) ∧ s key = false)) (h1 : ¬ v ≤ ((th - 10 : ℤ) : ℚ)) :
    alertStep s key v th = (s, false) := by
  unfold alertStep
  rw [if_neg h0, if_neg h1]

theorem alertStep_frame (s : AlertState) (key : String) (v : ℚ) (th : ℤ)
    (k : String) (h : k ≠ key) : (alertStep s key v th).1 k = s k := by
  unfold alertStep
  split_ifs <;> simp [setFlag, h]

theorem alertStep_local (s₁ s₂ : AlertState) (key : String) (v : ℚ) (th : ℤ)
    (h : s₁ key = s₂ key) :
    (alertStep s₁ key v th).1 key = (alertStep s₂ key v th).1 key ∧
    (alertStep s₁ key v th).2 = (alertStep s₂ key v th).2 := by
  unfold alertStep
  rw [h]
  split_ifs <;> simp [setFlag, h]

theorem transitionOf_same (b : Bool) : transitionOf b b false = Transition.none := by
  cases b <;> simp [transitionOf]

/-- Claim C1: the per-metric alert transition function of
`startRealTimeAlert` satisfies the hysteresis contract: a value strictly
above the threshold while the metric's flag is clear sets the flag, emits a
notification, and classifies as `Fired`; a value at most `threshold - 10`
while the flag is set clears the flag silently and classifies as `Cleared`;
in every other case the flag and the rest of the map are unchanged, nothing
is emitted, and the classification is `None`; and a step for one metric key
never touches any other key, so the cpu and mem entries of the shared map
never interact (stated also for the full `realTimeTick`). -/
theorem alert_hysteresis (key : String) (v : ℚ) (th : ℤ) (s : AlertState) :
    (v > (th : ℚ) ∧ s key = false →
      (alertStep s key v th).1 key = true ∧ (alertStep s key v th).2 = true ∧
      transitionOf (s key) ((alertStep s key v th).1 key) (alertStep s key v th).2 =
        Transition.fired) ∧
    (v ≤ ((th - 10 : ℤ) : ℚ) ∧ s key = true →
      (alertStep s key v th).1 key = false ∧ (alertStep s key v th).2 = false ∧
      transitionOf (s key) ((alertStep s key v th).1 key) (alertStep s key v th).2 =
        Transition.cleared) ∧
    (¬(v > (th : ℚ) ∧ s key = false) → ¬(v ≤ ((th - 10 : ℤ) : ℚ) ∧ s key = true) →
      (∀ k, (alertStep s key v th).1 k = s k) ∧ (alertStep s key v th).2 = false ∧
      transitionOf (s key) ((alertStep s key v th).1 key) (alertStep s key v th).2 =
        Transition.none) ∧
    (∀ k, k ≠ key → (alertStep s key v th).1 k = s k) ∧
    (∀ (cpuTh memTh : ℤ) (cv mv : ℚ),
      (realTimeTick cpuTh memTh s cv mv).1 cpuKey = (alertStep s cpuKey cv cpuTh).1 cpuKey ∧
      (realTimeTick cpuTh memTh s cv mv).1 memKey = (alertStep s memKey mv memTh).1 memKey) := by
  have hkeys : cpuKey ≠ memKey := by decide
  refine ⟨?_, ?_, ?_, fun k hk => alertStep_frame s key v th k hk, ?_⟩
  · rintro ⟨h1, h2⟩
    rw [alertStep_fire s key v th h1 h2]
    simp [setFlag_self, h2, transitionOf]
  · rintro ⟨h1, h2⟩
    have h0 : ¬(v > (th : ℚ) ∧ s key = false) := by
      rintro ⟨-, hk⟩
      rw [h2] at hk
      cases hk
    rw [alertStep_reset s key v th h0 h1]
    simp [setFlag_self, h2, transitionOf]
  · intro h0 h1
    by_cases hle : v ≤ ((th - 10 : ℤ) : ℚ)
    · have hkf : s key = false := by
        rcases Bool.eq_false_or_eq_true (s key) with hk | hk
        · exact absurd ⟨hle, hk⟩ h1
        · exact hk
      rw [alertStep_reset s key v th h0 hle]
      refine ⟨fun k => ?_, rfl, ?_⟩
      · by_cases hk : k = key
        · subst hk
          simp [setFlag_self, hkf]
        · simp [setFlag_other s key false k hk]
      · simp [setFlag_self, hkf, transitionOf]
    · rw [alertStep_idle s key v th h0 hle]
      exact ⟨fun k => rfl, rfl, transitionOf_same (s key)⟩
  · intro cpuTh memTh cv mv
    constructor
    · show (alertStep (alertStep s cpuKey cv cpuTh).1 memKey mv memTh).1 cpuKey = _
      rw [alertStep_frame _ memKey mv memTh cpuKey hkeys]
    · show (alertStep (alertStep s cpuKey cv cpuTh).1 memKey mv memTh).1 memKey = _
      exact (alertStep_local _ s memKey mv memTh
        (alertStep_frame s cpuKey cv cpuTh memKey hkeys.symm)).1

/-- Witness for `alert_hysteresis`: the three transition cases evaluated at
concrete inputs — fire at value 85 over threshold 80 from the all-clear
state, clear at value 65, and deadband idling at value 75 from the firing
state. -/
theorem alert_hysteresis_witness :
    ((alertStep initAlertState cpuKey 85 80).1 cpuKey = true ∧
      (alertStep initAlertState cpuKey 85 80).2 = true ∧
      transitionOf (initAlertState cpuKey) ((alertStep initAlertState cpuKey 85 80).1 cpuKey)
        (alertStep initAlertState cpuKey 85 80).2 = Transition.fired) ∧
    ((alertStep (setFlag initAlertState cpuKey true) cpuKey 65 80).1 cpuKey = false ∧
      (alertStep (setFlag initAlertState cpuKey true) cpuKey 65 80).2 = false ∧
      transitionOf (setFlag initAlertState cpuKey true cpuKey)
        ((alertStep (setFlag initAlertState cpuKey true) cpuKey 65 80).1 cpuKey)
        (alertStep (setFlag initAlertState cpuKey true) cpuKey 65 80).2 =
        Transition.cleared) ∧
    ((∀ k, (alertStep (setFlag initAlertState cpuKey true) cpuKey 75 80).1 k =
        setFlag initAlertState cpuKey true k) ∧
      (alertStep (setFlag initAlertState cpuKey true) cpuKey 75 80).2 = false ∧
      transitionOf (setFlag initAlertState cpuKey true cpuKey)
        ((alertStep (setFlag initAlertState cpuKey true) cpuKey 75 80).1 cpuKey)
        (alertStep (setFlag initAlertState cpuKey true) cpuKey 75 80).2 =
        Transition.none) :=
  ⟨(alert_hysteresis cpuKey 85 80 initAlertState).1 (by constructor <;> decide),
   (alert_hysteresis cpuKey 65 80 (setFlag initAlertState cpuKey true)).2.1
     (by constructor <;> decide),
   (alert_hysteresis cpuKey 75 80 (setFlag initAlertState cpuKey true)).2.2.1
     (by decide) (by decide)⟩

theorem alertRun_cons (s : AlertState) (key : String) (v : ℚ) (rest : List ℚ)
    (th : ℤ) :
    alertRun s key (v :: rest) th =
      ((alertRun (alertStep s key v th).1 key rest th).1,
       (if (alertStep s key v th).2 then 1 else 0) +
         (alertRun (alertStep s key v th).1 key rest th).2.1,
       transitionOf (s key) ((alertStep s key v th).1 key) (alertStep s key v th).2 ::
         (alertRun (alertStep s key v th).1 key rest th).2.2) := rfl

/-- While the flag for `key` is set and every sampled value stays strictly
above the threshold, a run of ticks changes nothing: no notification, every
transition `None`, the map untouched. -/
theorem alertRun_firing_above (key : String) (th : ℤ) (vals : List ℚ)
    (s : AlertState) (hs : s key = true) (hv : ∀ w ∈ vals, (th : ℚ) < w) :
    alertRun s key vals th = (s, 0, List.replicate vals.length Transition.none) := by
  induction vals generalizing s with
  | nil => rfl
  | cons v rest ih =>
    have hvth : (th : ℚ) < v := hv v (List.mem_cons_self v rest)
    have h0 : ¬(v > (th : ℚ) ∧ s key = false) := by
      rintro ⟨-, hk⟩
      rw [hs] at hk
      cases hk
    have h1 : ¬ v ≤ ((th - 10 : ℤ) : ℚ) := by
      push_cast
      intro hcon
      linarith
    rw [alertRun_cons, alertStep_idle s key v th h0 h1]
    rw [ih s hs (fun w hw => hv w (List.mem_cons_of_mem v hw))]
    simp [transitionOf_same, List.replicate_succ]

/-- Claim C6: fire-once. Starting from the all-clear state, a value
strictly above the threshold fires (one notification) on the first tick,
and any run of subsequent ticks whose values are at least as high produces
no further notification and no further transition: one notification in
total, the flag left set, and the transition trace is `Fired` followed by
`None`s. -/
theorem alert_fires_once (key : String) (th : ℤ) (v : ℚ) (vals : List ℚ) :
    v > (th : ℚ) → (∀ w ∈ vals, v ≤ w) →
    (alertStep initAlertState key v th).2 = true ∧
    (alertRun initAlertState key (v :: vals) th).2.1 = 1 ∧
    (alertRun initAlertState key (v :: vals) th).1 key = true ∧
    (alertRun initAlertState key (v :: vals) th).2.2 =
      Transition.fired :: List.replicate vals.length Transition.none := by
  intro hv hmono
  have hstep : alertStep initAlertState key v th = (setFlag initAlertState key true, true) :=
    alertStep_fire initAlertState key v th hv rfl
  have hrun := alertRun_firing_above key th vals (setFlag initAlertState key true)
    (setFlag_self initAlertState key true)
    (fun w hw => lt_of_lt_of_le hv (hmono w hw))
  refine ⟨by rw [hstep], ?_, ?_, ?_⟩ <;>
    rw [alertRun_cons, hstep] <;>
    simp [hrun, setFlag_self, transitionOf]

/-- Witness for `alert_fires_once`: threshold 80, first value 85, then two
further breaching samples 85 and 99 — exactly one notification, flag set,
trace `Fired, None, None`. -/
theorem alert_fires_once_witness :
    (alertStep initAlertState cpuKey 85 80).2 = true ∧
    (alertRun initAlertState cpuKey [85, 85, 99] 80).2.1 = 1 ∧
    (alertRun initAlertState cpuKey [85, 85, 99] 80).1 cpuKey = true ∧
    (alertRun initAlertState cpuKey [85, 85, 99] 80).2.2 =
      Transition.fired :: List.replicate 2 Transition.none :=
  alert_fires_once cpuKey 80 85 [85, 99] (by decide) (by decide)

/-- Claim C5: with a threshold strictly below 10 the clearing boundary
`threshold - 10` is negative, so over any run of sampled values in
`[0, 100]` a set firing flag is never reset and no `Cleared` transition
ever occurs for that metric. -/
theorem low_threshold_never_clears (key : String) (th : ℤ) (s : AlertState)
    (vals : List ℚ) :
    th < 10 → (∀ w ∈ vals, 0 ≤ w ∧ w ≤ 100) →
    (s key = true → (alertRun s key vals th).1 key = true) ∧
    Transition.cleared ∉ (alertRun s key vals th).2.2 := by
  intro hth
  induction vals generalizing s with
  | nil =>
    intro _
    exact ⟨fun h => h, by simp [alertRun]⟩
  | cons v rest ih =>
    intro hvals
    have hv0 : (0 : ℚ) ≤ v := (hvals v (List.mem_cons_self v rest)).1
    have hrest : ∀ w ∈ rest, 0 ≤ w ∧ w ≤ 100 :=
      fun w hw => hvals w (List.mem_cons_of_mem v hw)
    have hnc : ¬ v ≤ ((th - 10 : ℤ) : ℚ) := by
      push_cast
      intro hcon
      have : (th : ℚ) < 10 := by exact_mod_cast hth
      linarith
    rw [alertRun_cons]
    by_cases hf : v > (th : ℚ) ∧ s key = false
    · rw [alertStep_fire s key v th hf.1 hf.2]
      have hih := ih (setFlag s key true) hrest
      refine ⟨fun _ => hih.1 (setFlag_self s key true), ?_⟩
      simp only [List.mem_cons]
      rintro (htr | htr)
      · rw [setFlag_self, hf.2] at htr
        simp [transitionOf] at htr
      · exact hih.2 htr
    · rw [alertStep_idle s key v th hf hnc]
      have hih := ih s hrest
      refine ⟨fun h => hih.1 h, ?_⟩
      simp only [List.mem_cons]
      rintro (htr | htr)
      · rw [transitionOf_same] at htr
        cases htr
      · exact hih.2 htr

/-- Witness for `low_threshold_never_clears`: threshold 5, a firing cpu
flag, and the sample run `90, 50, 0` — the flag stays set and no `Cleared`
transition appears, even at value 0. -/
theorem low_threshold_never_clears_witness :
    (alertRun (setFlag initAlertState cpuKey true) cpuKey [90, 50, 0] 5).1 cpuKey = true ∧
    Transition.cleared ∉
      (alertRun (setFlag initAlertState cpuKey true) cpuKey [90, 50, 0] 5).2.2 :=
  have h := low_threshold_never_clears cpuKey 5 (setFlag initAlertState cpuKey true)
    [90, 50, 0] (by decide) (by decide)
  ⟨h.1 (by decide), h.2⟩

/-- Claim C7: `checkAndSendAlert` is stateless with respect to the alert
engine: it sends its combined alert message exactly when the current cpu or
memory value is strictly above its threshold, its decision is the same for
every firing-flag map, and the `alertSent` map is returned unchanged. -/
theorem checkAndSendAlert_stateless (cfg : Config) (s : AlertState)
    (cpuVal memVal : ℚ) :
    (checkAndSendAlert cfg s cpuVal memVal).1 = s ∧
    ((checkAndSendAlert cfg s cpuVal memVal).2 = true ↔
      cpuVal > (cfg.cpuThreshold : ℚ) ∨ memVal > (cfg.memThreshold : ℚ)) ∧
    (∀ s' : AlertState,
      (checkAndSendAlert cfg s' cpuVal memVal).2 =
        (checkAndSendAlert cfg s cpuVal memVal).2) := by
  refine ⟨rfl, ?_, fun s' => rfl⟩
  simp only [checkAndSendAlert]
  split_ifs <;> simp_all

/-- Claim C8: retrieval errors never propagate out of the report path:
`getCPUUsage` returns the placeholder `0` when retrieval fails or yields no
samples (and the first sample otherwise), and `getLocationInfo` returns the
"未知" (unknown) placeholder for both ip and location when resolution
fails. -/
theorem retrieval_failures_degrade :
    getCPUUsage Option.none = 0 ∧
    getCPUUsage (some []) = 0 ∧
    (∀ (p : ℚ) (ps : List ℚ), getCPUUsage (some (p :: ps)) = p) ∧
    (getLocationInfo Option.none).ip = "未知" ∧
    (getLocationInfo Option.none).location = "未知" := by
  refine ⟨rfl, rfl, fun p ps => ?_, rfl, rfl⟩
  simp [getCPUUsage]

/-- Claim C9: uptime formatting renders days, hours and minutes when the
day count is positive; hours and minutes (no days component) when the day
count is zero but the hour count positive; and minutes only when both are
zero — in particular 0 seconds renders as "0分钟" and 3661 seconds as
"1小时1分钟" with no days component. -/
theorem formatUptime_components (u : ℕ) :
    (0 < u / 86400 →
      formatUptime u =
        Nat.repr (u / 86400) ++ "天" ++ Nat.repr (u / 3600 % 24) ++ "小时" ++
          Nat.repr (u / 60 % 60) ++ "分钟") ∧
    (u / 86400 = 0 → 0 < u / 3600 % 24 →
      formatUptime u =
        Nat.repr (u / 3600 % 24) ++ "小时" ++ Nat.repr (u / 60 % 60) ++ "分钟") ∧
    (u / 86400 = 0 → u / 3600 % 24 = 0 →
      formatUptime u = Nat.repr (u / 60 % 60) ++ "分钟") ∧
    formatUptime 0 = "0分钟" ∧
    formatUptime 3661 = "1小时1分钟" := by
  have hdd : u / 3600 / 24 = u / 86400 := by
    rw [Nat.div_div_eq_div_mul]
  refine ⟨fun h => ?_, fun h1 h2 => ?_, fun h1 h2 => ?_, by decide, by decide⟩
  · simp only [formatUptime, hdd]
    rw [if_pos h]
  · simp only [formatUptime, hdd]
    rw [if_neg (by omega), if_pos h2]
  · simp only [formatUptime, hdd]
    rw [if_neg (by omega), if_neg (by omega)]

/-- Witness for `formatUptime_components`: 90061 seconds (1d 1h 1m 1s)
renders with all three components, 3661 seconds with hours and minutes
only, and 0 seconds as minutes only. -/
theorem formatUptime_components_witness :
    formatUptime 90061 =
      Nat.repr 1 ++ "天" ++ Nat.repr 1 ++ "小时" ++ Nat.repr 1 ++ "分钟" ∧
    formatUptime 3661 = Nat.repr 1 ++ "小时" ++ Nat.repr 1 ++ "分钟" ∧
    formatUptime 0 = Nat.repr 0 ++ "分钟" :=
  ⟨(formatUptime_components 90061).1 (by decide),
   (formatUptime_components 3661).2.1 (by decide) (by decide),
   (formatUptime_components 0).2.2.1 (by decide) (by decide)⟩

/-- An environment that sets `BOT_TOKEN` and `CHAT_ID`. -/
def envC2 : EnvVars :=
  { botToken := "env-token"
    chatID := "1"
    reportTime := ""
    customMessage := ""
    cpuThreshold := ""
    memThreshold := "" }

/-- A `config.json` that also sets `bot_token` and `chat_id`. -/
def fileC2 : FileConfig :=
  { botToken := some "file-token"
    chatID := some 2
    reportTime := Option.none
    customMessage := Option.none
    cpuThreshold := Option.none
    memThreshold := Option.none }

/-- The config `loadConfig` produces from `envC2` and `fileC2`. -/
def okC2 : Config :=
  { botToken := "file-token"
    chatID := 2
    reportTime := "15:00"
    customMessage := "🖥️ 服务器状态报告"
    cpuThreshold := 80
    memThreshold := 80 }

/-- Counterexample to claim C2: with `BOT_TOKEN=env-token`, `CHAT_ID=1` in
the environment and `bot_token=file-token`, `chat_id=2` in `config.json`,
`loadConfig` returns the file's values, not the environment's — the claimed
precedence "environment variables override the file" is false: the code
reads the environment first and then unmarshals `config.json` over it. -/
theorem config_precedence_counterexample :
    loadConfig envC2 (some fileC2) = Except.ok okC2 ∧
    okC2.botToken ≠ envC2.botToken ∧ okC2.chatID ≠ 1 := by
  refine ⟨by rfl, ?_, ?_⟩ <;> decide

/-- Claim C2 as amended: precedence at startup is defaults, then
environment variables over the defaults, then an explicit `config.json`
over both — for every field set both in `config.json` and in its
environment variable, the loaded `Config` carries the file's value. -/
theorem config_file_overrides_env (env : EnvVars) (f : FileConfig) (c : Config) :
    loadConfig env (some f) = Except.ok c →
    (∀ t, f.botToken = some t → c.botToken = t) ∧
    (∀ i, f.chatID = some i → c.chatID = i) ∧
    (∀ t, f.reportTime = some t → c.reportTime = t) ∧
    (∀ t, f.customMessage = some t → c.customMessage = t) ∧
    (∀ i, f.cpuThreshold = some i → c.cpuThreshold = i) ∧
    (∀ i, f.memThreshold = some i → c.memThreshold = i) := by
  intro h
  simp only [loadConfig] at h
  split_ifs at h
  cases h
  refine ⟨fun t ht => ?_, fun i hi => ?_, fun t ht => ?_, fun t ht => ?_,
    fun i hi => ?_, fun i hi => ?_⟩ <;>
    simp [applyFile, *]

/-- Witness for `config_file_overrides_env`: applied to `envC2` and
`fileC2`, the loaded config carries the file's token and chat id. -/
theorem config_file_overrides_env_witness :
    loadConfig envC2 (some fileC2) = Except.ok okC2 ∧
    okC2.botToken = "file-token" ∧ okC2.chatID = 2 :=
  ⟨by rfl,
   (config_file_overrides_env envC2 fileC2 okC2 (by rfl)).1 "file-token" rfl,
   (config_file_overrides_env envC2 fileC2 okC2 (by rfl)).2.1 2 rfl⟩

/-- 2025-06-26 as a day number: days since 1970-01-01, the epoch day of
the Beijing-local instant scale used by `targetToday`/`nextFire`. -/
def schedDay : ℤ := 20265

/-- Counterexample to claim C3: when the projected current Beijing time is
exactly today's target (here 2025-06-26T15:00:00.000000000+08:00 with
`reportTime` 15:00), the code's strict `beijingTime.After(targetTime)` test
does not advance the target, so the next-fire instant is that same instant
— not, as the claim states for every "at or after" time, the target
advanced by 24 hours. -/
theorem scheduler_boundary_counterexample :
    nextFire (schedDay * nsPerDay + 15 * 3600 * nsPerSecond) 15 0 =
      schedDay * nsPerDay + 15 * 3600 * nsPerSecond ∧
    nextFire (schedDay * nsPerDay + 15 * 3600 * nsPerSecond) 15 0 ≠
      schedDay * nsPerDay + 15 * 3600 * nsPerSecond + nsPerDay := by
  constructor <;> decide

/-- Claim C3 as amended: for every current Beijing-local instant and valid
reportTime hour:minute, the computed next-fire instant is today's
hour:minute:00 in the fixed UTC+8 offset when the current time is at or
before that target (including exactly at it), and the target advanced by
exactly 24 hours when the current time is strictly after it; in particular
with reportTime 15:00, 2025-06-26T16:00:00+08:00 yields
2025-06-27T15:00:00+08:00 and 2025-06-26T10:00:00+08:00 yields
2025-06-26T15:00:00+08:00. -/
theorem nextFire_spec (t : ℤ) (hour minute : ℕ) :
    (t ≤ targetToday t hour minute → nextFire t hour minute = targetToday t hour minute) ∧
    (targetToday t hour minute < t →
      nextFire t hour minute = targetToday t hour minute + nsPerDay) ∧
    nextFire (schedDay * nsPerDay + 16 * 3600 * nsPerSecond) 15 0 =
      (schedDay + 1) * nsPerDay + 15 * 3600 * nsPerSecond ∧
    nextFire (schedDay * nsPerDay + 10 * 3600 * nsPerSecond) 15 0 =
      schedDay * nsPerDay + 15 * 3600 * nsPerSecond := by
  refine ⟨fun h => ?_, fun h => ?_, by decide, by decide⟩
  · unfold nextFire
    rw [if_neg (by omega)]
  · unfold nextFire
    rw [if_pos h]

/-- Witness for `nextFire_spec`: at 10:00 the target is still ahead and is
kept; at 16:00 it has passed and is advanced by one day. -/
theorem nextFire_spec_witness :
    nextFire (schedDay * nsPerDay + 10 * 3600 * nsPerSecond) 15 0 =
      targetToday (schedDay * nsPerDay + 10 * 3600 * nsPerSecond) 15 0 ∧
    nextFire (schedDay * nsPerDay + 16 * 3600 * nsPerSecond) 15 0 =
      targetToday (schedDay * nsPerDay + 16 * 3600 * nsPerSecond) 15 0 + nsPerDay :=
  ⟨(nextFire_spec (schedDay * nsPerDay + 10 * 3600 * nsPerSecond) 15 0).1 (by decide),
   (nextFire_spec (schedDay * nsPerDay + 16 * 3600 * nsPerSecond) 15 0).2.1 (by decide)⟩

/-! ## Lemmas about `splitOnChar` and `afterLast` -/

theorem splitOnChar_ne_nil (c : Char) (l : List Char) : splitOnChar c l ≠ [] := by
  cases l with
  | nil => simp [splitOnChar]
  | cons a rest =>
    simp only [splitOnChar]
    split_ifs <;> simp

theorem splitOnChar_cons_exists (c : Char) (l : List Char) :
    ∃ x xs, splitOnChar c l = x :: xs := by
  cases hsp : splitOnChar c l with
  | nil => exact absurd hsp (splitOnChar_ne_nil c l)
  | cons x xs => exact ⟨x, xs, rfl⟩

theorem splitOnChar_of_not_mem (c : Char) (l : List Char) (h : c ∉ l) :
    splitOnChar c l = [l] := by
  induction l with
  | nil => rfl
  | cons a rest ih =>
    have hac : ¬ a = c := fun hc => h (hc ▸ List.mem_cons_self a rest)
    simp only [splitOnChar, if_neg hac]
    rw [ih (fun hm => h (List.mem_cons_of_mem a hm))]
    rfl

theorem length_splitOnChar (c : Char) (l : List Char) :
    (splitOnChar c l).length = l.count c + 1 := by
  induction l with
  | nil => rfl
  | cons a rest ih =>
    simp only [splitOnChar]
    by_cases hac : a = c
    · rw [if_pos hac]
      simp only [List.length_cons, ih, List.count_cons]
      simp [hac]
    · rw [if_neg hac]
      obtain ⟨x, xs, hr⟩ := splitOnChar_cons_exists c rest
      rw [hr] at ih ⊢
      simp only [List.length_cons, List.count_cons] at ih ⊢
      simp [hac]
      omega

theorem afterLast_of_not_mem (c : Char) (l : List Char) (h : c ∉ l) :
    afterLast c l = l := by
  unfold afterLast
  rw [List.takeWhile_eq_self_iff.2 ?_, List.reverse_reverse]
  intro x hx
  have : x ≠ c := fun hxc => h (hxc ▸ (List.mem_reverse.1 hx))
  simp [this]

theorem afterLast_cons_self (c : Char) (l : List Char) :
    afterLast c (c :: l) = afterLast c l := by
  unfold afterLast
  rw [List.reverse_cons, List.takeWhile_append]
  split_ifs with h
  · have hall : l.reverse.takeWhile (fun a => a ≠ c) = l.reverse :=
      (List.takeWhile_prefix _).eq_of_length h
    rw [hall]
    simp [List.takeWhile_cons]
  · rfl

theorem afterLast_cons_of_mem (c a : Char) (l : List Char) (h : c ∈ l) :
    afterLast c (a :: l) = afterLast c l := by
  unfold afterLast
  rw [List.reverse_cons, List.takeWhile_append]
  rw [if_neg ?_]
  intro hlen
  have hall : l.reverse.takeWhile (fun a => a ≠ c) = l.reverse :=
    (List.takeWhile_prefix _).eq_of_length hlen
  have := List.takeWhile_eq_self_iff.1 hall c (List.mem_reverse.2 h)
  simp at this

theorem getLast?_splitOnChar (c : Char) (l : List Char) :
    (splitOnChar c l).getLast? = some (afterLast c l) := by
  induction l with
  | nil => rfl
  | cons a rest ih =>
    simp only [splitOnChar]
    by_cases hac : a = c
    · rw [if_pos hac]
      obtain ⟨x, xs, hr⟩ := splitOnChar_cons_exists c rest
      rw [hr]
      rw [List.getLast?_cons_cons, ← hr, ih, hac, afterLast_cons_self]
    · rw [if_neg hac]
      by_cases hmem : c ∈ rest
      · have hlen := length_splitOnChar c rest
        have hpos : 0 < rest.count c := List.count_pos_iff.2 hmem
        obtain ⟨x, xs, hr⟩ := splitOnChar_cons_exists c rest
        obtain ⟨y, ys, hxs⟩ : ∃ y ys, xs = y :: ys := by
          cases xs with
          | nil =>
            rw [hr] at hlen
            simp at hlen
            omega
          | cons y ys => exact ⟨y, ys, rfl⟩
        rw [hr, hxs]
        simp only [List.headD, List.tail]
        rw [List.getLast?_cons_cons]
        have : (y :: ys).getLast? = some (afterLast c rest) := by
          rw [← List.getLast?_cons_cons (a := x), ← hxs, ← hr, ih]
        rw [this, afterLast_cons_of_mem c a rest hmem]
      · rw [splitOnChar_of_not_mem c rest hmem]
        have hnm : c ∉ a :: rest := by
          intro hm
          rcases List.mem_cons.1 hm with hm | hm
          · exact hac hm.symm
          · exact hmem hm
        rw [afterLast_of_not_mem c (a :: rest) hnm]
        rfl

/-- With exactly three dots, `parts[3]` of `strings.Split(ip, ".")` is the
text after the last dot, and the IPv4 branch of `maskIP` is taken. -/
theorem maskIP_dotted (ip : List Char) (h : ip.count '.' = 3) :
    maskIP ip = "x.x.x.".toList ++ afterLast '.' ip := by
  unfold maskIP
  rw [if_pos h]
  congr 1
  have hlen : (splitOnChar '.' ip).length = 4 := by
    rw [length_splitOnChar, h]
  have hlast := getLast?_splitOnChar '.' ip
  rw [List.getLast?_eq_getElem?, hlen] at hlast
  rw [List.getD_eq_getElem?_getD]
  norm_num at hlast
  rw [hlast]
  rfl

/-- Claim C4: `maskIP` returns, for every input with exactly three dots,
the literal "x.x.x." followed by the text after the last dot (so
"203.0.113.77" masks to "x.x.x.77"); for every other input containing a
colon it removes all colons and prefixes "...", keeping only the last 8
characters when more than 8 remain; every other input is returned
unmodified. -/
theorem maskIP_spec (ip : List Char) :
    (ip.count '.' = 3 → maskIP ip = "x.x.x.".toList ++ afterLast '.' ip) ∧
    (ip.count '.' ≠ 3 → ':' ∈ ip →
      maskIP ip =
        "...".toList ++
          (if 8 < (ip.filter (fun a => a ≠ ':')).length then
            (ip.filter (fun a => a ≠ ':')).drop ((ip.filter (fun a => a ≠ ':')).length - 8)
          else ip.filter (fun a => a ≠ ':'))) ∧
    (ip.count '.' ≠ 3 → ':' ∉ ip → maskIP ip = ip) ∧
    maskIP ("203.0.113.77".toList) = "x.x.x.77".toList := by
  refine ⟨maskIP_dotted ip, fun h1 h2 => ?_, fun h1 h2 => ?_, by decide⟩
  · simp only [maskIP, if_neg h1, if_pos h2]
    split_ifs <;> rfl
  · unfold maskIP
    rw [if_neg h1, if_neg h2]

/-- Witness for `maskIP_spec`: the IPv4 branch at "203.0.113.77", the IPv6
branch at the colon-stripped forms of "2001:0db8:85a3:0000:0000:8a2e:0370:7334"
(more than 8 characters remain: keep the last 8) and of "::1" (at most 8:
keep all), and the pass-through branch at "hello". -/
theorem maskIP_spec_witness :
    maskIP ("203.0.113.77".toList) =
      "x.x.x.".toList ++ afterLast '.' ("203.0.113.77".toList) ∧
    maskIP ("2001:0db8:85a3:0000:0000:8a2e:0370:7334".toList) = "...03707334".toList ∧
    maskIP ("::1".toList) = "...1".toList ∧
    maskIP ("hello".toList) = "hello".toList :=
  have h6 := (maskIP_spec ("2001:0db8:85a3:0000:0000:8a2e:0370:7334".toList)).2.1
    (by decide) (by decide)
  have h1 := (maskIP_spec ("::1".toList)).2.1 (by decide) (by decide)
  ⟨(maskIP_spec ("203.0.113.77".toList)).1 (by decide),
   by rw [h6]; decide,
   by rw [h1]; decide,
   (maskIP_spec ("hello".toList)).2.2.1 (by decide) (by decide)⟩

/-- Claim C10: for every input with exactly three dots that also contains
colons (e.g. the IPv4-mapped IPv6 form "::ffff:203.0.113.77"), the
dotted-quad check of `maskIP` runs before the colon check, so the IPv4 rule
applies: the result is "x.x.x." plus the text after the last dot. -/
theorem maskIP_dots_before_colons (ip : List Char) :
    (ip.count '.' = 3 → ':' ∈ ip →
      maskIP ip = "x.x.x.".toList ++ afterLast '.' ip) ∧
    maskIP ("::ffff:203.0.113.77".toList) = "x.x.x.77".toList :=
  ⟨fun h _ => maskIP_dotted ip h, by decide⟩

/-- Witness for `maskIP_dots_before_colons`: "::ffff:203.0.113.77" has
three dots and colons, and masks by the IPv4 rule. -/
theorem maskIP_dots_before_colons_witness :
    maskIP ("::ffff:203.0.113.77".toList) =
      "x.x.x.".toList ++ afterLast '.' ("::ffff:203.0.113.77".toList) :=
  (maskIP_dots_before_colons ("::ffff:203.0.113.77".toList)).1 (by decide) (by decide)

end Jiankong
